import Mathlib

/-!
Verification of the GME-bot reputation features against their specification.

This file shallowly embeds the relevant parts of the repository:
  * `utils/rate_limiter.py` — the sliding-window `RateLimiter`;
  * `features/cheers.py` — the "cheers" reputation variant;
  * `features/kudos.py` — the "kudos" reputation variant.

Python dictionaries (`{str: int}`) are modelled as insertion-ordered
association lists, matching CPython's guaranteed key insertion order.
Timestamps are natural numbers counting whole seconds (the code persists
cooldown timestamps with the second-granularity format
`"%Y-%m-%d %H:%M:%S"`).  Outbound platform calls (user-existence and
subreddit-membership lookups) are modelled by Boolean parameters giving
the environment's answer, and side effects (file saves, flair updates,
comment replies) are recorded in an effect trace in the order the code
performs them.
-/

namespace GMEBot

/-- A Python dict `{str: int}` as an insertion-ordered association list. -/
abbrev Ledger := List (String × Nat)

/-- `d.get(k)` / `d.get(k, default)` lookup: first (unique) binding of `k`. -/
def dictFind? : Ledger → String → Option Nat
  | [], _ => none
  | p :: rest, k => if p.1 = k then some p.2 else dictFind? rest k

/-- `d.get(k, dflt)` — Python `dict.get` with a default. -/
def dictGet (d : Ledger) (k : String) (dflt : Nat) : Nat :=
  (dictFind? d k).getD dflt

/-- `d[k] = v` — Python dict assignment: update in place if the key is
present (keeping its position), otherwise append the new key at the end. -/
def dictSet : Ledger → String → Nat → Ledger
  | [], k, v => [(k, v)]
  | p :: rest, k, v => if p.1 = k then (k, v) :: rest else p :: dictSet rest k v

/-- Python `str.lower()` (handles are ASCII Reddit usernames). -/
def pyLower (s : String) : String := String.mk (s.data.map Char.toLower)

/-- Python `str.lstrip(chars)`: remove *all* leading characters that belong
to the set `chars` (not merely a literal prefix). -/
def pyLstrip (chars : List Char) (s : String) : String :=
  String.mk (s.data.dropWhile (fun c => chars.contains c))

/-! ## RateLimiter (`utils/rate_limiter.py`)

`acquire` runs entirely under `self.lock` (the lock is even held across the
`time.sleep`), so concurrent acquisitions are fully serialized; we model an
execution as a sequence of acquisitions, each given the wall-clock time at
which it obtains the lock.  `time.sleep(t)` is modelled as advancing the
clock by exactly `t` (the computed sleep amount). -/

/-- `self.calls = [call for call in self.calls if now - call < self.period]` -/
def pruneCalls (period now : Nat) (calls : List Nat) : List Nat :=
  calls.filter (fun c => decide (now - c < period))

/-- One `RateLimiter.acquire()` call entered at wall-clock time `now`:
prune, then if `max_calls` timestamps remain, sleep
`period - (now - calls[0])` seconds and prune again; finally record the
current time and return it.  (The `[]` inner case is unreachable whenever
`0 < maxCalls`, since the branch requires `maxCalls ≤ calls1.length`.)
Returns the new `self.calls` list and the time at which the call returns. -/
def acquire (maxCalls period : Nat) (calls : List Nat) (now : Nat) :
    List Nat × Nat :=
  let calls1 := pruneCalls period now calls
  if maxCalls ≤ calls1.length then
    match calls1 with
    | [] => (calls1 ++ [now], now)
    | c0 :: _ =>
      let now2 := now + (period - (now - c0))
      let calls2 := pruneCalls period now2 calls1
      (calls2 ++ [now2], now2)
  else (calls1 ++ [now], now)

/-- Run a serialized sequence of `acquire()` calls, collecting the time at
which each call returns. -/
def rlRun (maxCalls period : Nat) : List Nat → List Nat → List Nat
  | _, [] => []
  | calls, a :: rest =>
    let s := acquire maxCalls period calls a
    s.2 :: rlRun maxCalls period s.1 rest

/-- A schedule of lock-acquisition times is valid when each `acquire()`
obtains the lock no earlier than the previous call returned (the lock is
held for the whole call, including the sleep). -/
def rlValid (maxCalls period : Nat) : List Nat → Nat → List Nat → Bool
  | _, _, [] => true
  | calls, last, a :: rest =>
    if last ≤ a then
      rlValid maxCalls period (acquire maxCalls period calls a).1
        (acquire maxCalls period calls a).2 rest
    else false

/-- `r` falls in the half-open sliding window `[t, t + period)`. -/
def inWindow (period t r : Nat) : Bool :=
  decide (t ≤ r) && decide (r < t + period)

/-! ## Cheers (`features/cheers.py`) -/

/-- The data attached to an awarder's identity at command-receipt time:
`author.name`, `author.created_utc` (seconds) and `author.comment_karma`. -/
structure Awarder where
  name : String
  createdUtc : Nat
  commentKarma : Int
deriving DecidableEq

/-- The three persisted mappings of `CheersFeature`: `cheers_data`
(received counts), `rate_limit_data` (awarder → last-award timestamp,
stored at second granularity) and `cheers_awarded_data` (given counts). -/
structure CheersState where
  cheersData : Ledger
  rateLimitData : Ledger
  cheersAwardedData : Ledger
deriving DecidableEq

/-- The outbound side effects of `handle_cheers`, in program order. -/
inductive CheersEffect
  | saveRateLimit
  | saveCheers
  | saveAwarded
  | updateFlair (user : String) (count : Nat)
  | reply (content : String)
deriving DecidableEq

/-- The age/karma tail of `can_award_cheers` (the part after the cooldown
check): account must be ≥ 7 days old and have ≥ 50 comment karma.
`(current_time - utcfromtimestamp(created_utc)).days` is
`(now - createdUtc) / 86400`. -/
def can_award_cheers_rest (now : Nat) (a : Awarder) : Bool × String :=
  if (now - a.createdUtc) / 86400 < 7 then
    (false, "Your account must be at least 7 days old to award cheers.")
  else if a.commentKarma < 50 then
    (false, "You need at least 50 comment karma to award cheers.")
  else (true, "")

/-- `CheersFeature.can_award_cheers`: the cooldown check
(`CHEERS_COOLDOWN_SECONDS = 3600/6`) keyed by the *raw* `author.name`,
then the account-age and karma checks. -/
def can_award_cheers (rl : Ledger) (now : Nat) (a : Awarder) : Bool × String :=
  match dictFind? rl a.name with
  | some last =>
    if now - last < 3600 / 6 then
      (false, "You can only award cheers once every 10 minutes.")
    else can_award_cheers_rest now a
  | none => can_award_cheers_rest now a

/-- `mentioned_username.lstrip('u/').lstrip('/')` — the target-handle
normalization in `handle_cheers` (and `process_cheers_command`). -/
def cheersNormalizeTarget (m : String) : String :=
  pyLstrip ['/'] (pyLstrip ['u', '/'] m)

/-- `CheersFeature.handle_cheers`.  `validUser` and `member` are the
environment's answers to the two outbound lookups
(`is_valid_reddit_user`, `is_user_part_of_subreddit`); `now` is both the
`datetime.utcnow()` of the security checks and of the cooldown write.
Returns the new state and the effect trace in program order. -/
def handle_cheers (sig : String) (validUser member : Bool) (m0 : String)
    (a : Awarder) (reason : String) (now : Nat) (st : CheersState) :
    CheersState × List CheersEffect :=
  let m := cheersNormalizeTarget m0
  if !validUser then
    (st, [.reply ("User u/" ++ m ++ " does not exist on Reddit." ++ sig)])
  else if !member then
    (st, [.reply ("User u/" ++ m ++ " is not active in this subreddit." ++ sig)])
  else if pyLower m = pyLower a.name then
    (st, [.reply ("You cannot award cheers to yourself!" ++ sig)])
  else
    let ca := can_award_cheers st.rateLimitData now a
    if !ca.1 then
      (st, [.reply (ca.2 ++ sig)])
    else
      let rl' := dictSet st.rateLimitData a.name now
      let count := dictGet st.cheersData (pyLower m) 0 + 1
      let cd' := dictSet st.cheersData (pyLower m) count
      let aw' := dictSet st.cheersAwardedData (pyLower a.name)
        (dictGet st.cheersAwardedData (pyLower a.name) 0 + 1)
      (⟨cd', rl', aw'⟩,
        [.saveRateLimit, .saveCheers, .saveAwarded, .updateFlair m count,
         .reply ("u/" ++ a.name ++ " has awarded cheers to u/" ++ m ++
           "! They now have " ++ toString count ++ " cheers." ++ reason ++ sig)])

/-- `sorted(data.items(), key=lambda x: x[1], reverse=True)`: Python's
`sorted` is stable and `reverse=True` keeps equal elements in their
original (insertion) order, which is exactly insertion sort with the
descending-by-count relation placing each element before later equal
ones. -/
def sorted_cheers (d : Ledger) : Ledger :=
  List.insertionSort (fun x y : String × Nat => y.2 ≤ x.2) d

/-- `sorted(self.cheers_data.items(), key=lambda x: x[1], reverse=True)[:5]`
— the `!cheers top` leaderboard. -/
def top_users (d : Ledger) : Ledger := (sorted_cheers d).take 5

/-! ## Kudos (`features/kudos.py`) -/

/-- The persisted mappings of `KudosFeature`: `kudos_data` and
`rate_limit_data` (the latter is loaded but never written, and
`can_award_kudos` — the only reader — is never called). -/
structure KudosState where
  kudosData : Ledger
  rateLimitData : Ledger
deriving DecidableEq

/-- The outbound side effects of `handle_kudos`, in program order. -/
inductive KudosEffect
  | saveKudos
  | updateFlair (user : String) (count : Nat)
  | reply (content : String)
deriving DecidableEq

/-- `KudosFeature.can_award_kudos`: identical checks to the cheers variant
(cooldown keyed by raw `author.name`, then age and karma).  This function
is *dead code*: nothing in `kudos.py` ever calls it. -/
def can_award_kudos (rl : Ledger) (now : Nat) (a : Awarder) : Bool × String :=
  match dictFind? rl a.name with
  | some last =>
    if now - last < 3600 / 6 then
      (false, "You can only award kudos once every 10 minutes.")
    else can_award_kudos_rest now a
  | none => can_award_kudos_rest now a
where
  /-- age and karma tail, as in the cheers variant -/
  can_award_kudos_rest (now : Nat) (a : Awarder) : Bool × String :=
    if (now - a.createdUtc) / 86400 < 7 then
      (false, "Your account must be at least 7 days old to award kudos.")
    else if a.commentKarma < 50 then
      (false, "You need at least 50 comment karma to award kudos.")
    else (true, "")

/-- `KudosFeature.handle_kudos`.  Note what is *absent* compared to
`handle_cheers`: no self-award check, no call to `can_award_kudos`
(so no cooldown), no write to `rate_limit_data`, no lock, and the ledger
key `mentioned_username[2:]` is not lowercased.  The function does not
even take the current time as an input. -/
def handle_kudos (sig : String) (validUser member : Bool) (m0 : String)
    (a : Awarder) (st : KudosState) : KudosState × List KudosEffect :=
  if m0.data.take 2 ≠ ['u', '/'] then
    (st, [.reply ("Invalid username format. Please use 'u/username' to mention a Reddit user.\n\nOther commands include:\n\n`!kudos me` - see your own kudos\n\n`!kudos top` - see the leaderboard" ++ sig)])
  else
    let m := String.mk (m0.data.drop 2)
    if !validUser then
      (st, [.reply ("User u/" ++ m ++ " does not exist on Reddit." ++ sig)])
    else if !member then
      (st, [.reply ("User u/" ++ m ++ " is not active in this subreddit." ++ sig)])
    else
      let count := dictGet st.kudosData m 0 + 1
      (⟨dictSet st.kudosData m count, st.rateLimitData⟩,
        [.saveKudos, .updateFlair m count,
         .reply ("u/" ++ a.name ++ " has awarded kudos to u/" ++ m ++
           "! They now have " ++ toString count ++ " kudos." ++ sig)])

/-! ## Ledger increments and the lost-update race (C4)

`handle_cheers` increments the received-count ledger while holding
`self.lock`, so those read-modify-writes are atomic and any concurrent
execution is an arbitrary serialization of whole increments.  The
given-count update (`cheers_awarded_data`, cheers.py line 195) and the
kudos update (kudos.py lines 161–162) run *without* the lock, so their
read and write are separate steps that other threads can interleave. -/

/-- One lock-guarded increment, as `handle_cheers` performs on
`cheers_data` under `self.lock`: read the count (default 0), add 1, write
back — all atomic. -/
def incrLocked (d : Ledger) (k : String) : Ledger :=
  dictSet d k (dictGet d k 0 + 1)

/-- A serialization of lock-guarded increments: any interleaving of `n`
threads each doing one atomic increment is `runIncrs` on some ordering of
their keys. -/
def runIncrs : Ledger → List String → Ledger
  | d, [] => d
  | d, k :: ks => runIncrs (incrLocked d k) ks

/-- The *read* half of the unguarded kudos increment
(`self.kudos_data.get(mentioned_username, 0)`, kudos.py line 161): a
thread's local snapshot of the count. -/
def kudosReadCount (d : Ledger) (k : String) : Nat := dictGet d k 0

/-- The *write* half of the unguarded kudos increment
(`self.kudos_data[mentioned_username] = kudos_count`, kudos.py line 162),
storing the previously read snapshot plus 1. -/
def kudosWriteCount (d : Ledger) (k : String) (snapshot : Nat) : Ledger :=
  dictSet d k (snapshot + 1)

/-! ## Startup loading (C7)

`load_json_data` (cheers.py lines 38–44, kudos.py lines 31–36):

    if os.path.exists(file_name):
        with open(file_name, 'r') as f:
            return json.load(f)
    else:
        return {}

A file on disk is modelled as `Option LoadResult`: `none` when
`os.path.exists` is false, and `some r` where `r` is the outcome of
`json.load` on its contents — `Except.ok` the parsed mapping for valid
JSON, `Except.error` the raised `json.JSONDecodeError` message for
malformed contents.  The code wraps `json.load` in no `try`/`except`, so
its outcome propagates unchanged. -/

abbrev LoadResult := Except String Ledger

/-- `load_json_data` of both features: a missing file yields the empty
mapping; an existing file yields whatever `json.load` does. -/
def load_json_data (file : Option LoadResult) : LoadResult :=
  match file with
  | none => Except.ok []
  | some parsed => parsed

/-! ## Flair text update (C9)

`update_user_flair` (cheers.py lines 63–86, kudos.py lines 42–66) computes
the new flair text from the existing flair text and the new count.  The
count is interpolated with `f"{cheers_count}"`; we parameterize over its
decimal string `countStr`.  Python string slicing `s[:k]` with a possibly
negative bound `k` is `pySlice`. -/

/-- Python `s[:k]`: for `k ≥ 0` the first `k` characters; for `k < 0` all
but the last `-k` characters (empty when `-k ≥ len(s)`). -/
def pySlice (s : String) (k : Int) : String :=
  if 0 ≤ k then String.mk (s.data.take k.toNat)
  else String.mk (s.data.take (s.data.length - (-k).toNat))

/-- Right-trim of whitespace (Python `str.rstrip()`; only plain spaces
occur in the texts involved). -/
def trimRightList (l : List Char) : List Char :=
  (l.reverse.dropWhile Char.isWhitespace).reverse

/-- Python `str.strip()`: trim whitespace from both ends. -/
def pyStrip (s : String) : String :=
  String.mk (trimRightList (s.data.dropWhile Char.isWhitespace))

/-- Python `str.rstrip()`. -/
def pyRstrip (s : String) : String := String.mk (trimRightList s.data)

/-- `"(:1DFV1:"` reversed — the fixed part of the cheers flair token as
seen from the end of the string. -/
def cheersTokenRev : List Char := [':', '1', 'V', 'F', 'D', '1', ':', '(']

/-- `"(🎖"` reversed — the fixed part of the kudos flair token as seen
from the end of the string. -/
def kudosTokenRev : List Char := ['🎖', '(']

/-- `re.sub(r'...\d+\)$', '', flair_text)` for a token whose fixed head,
reversed, is `tokRev`: if the text ends with `tokHead ++ digits ++ ")"`
(at least one digit), remove that suffix; otherwise leave the text
unchanged. -/
def stripTokenList (tokRev : List Char) (l : List Char) : List Char :=
  match l.reverse with
  | [] => l
  | c :: rest =>
    if c = ')' then
      let ds := rest.takeWhile Char.isDigit
      let rest2 := rest.dropWhile Char.isDigit
      if ds.length ≠ 0 ∧ rest2.take tokRev.length = tokRev then
        (rest2.drop tokRev.length).reverse
      else l
    else l

/-- `re.sub(r'\(:1DFV1:\d+\)$', '', flair_text)` — strip a trailing cheers
count token. -/
def stripCheersToken (s : String) : String :=
  String.mk (stripTokenList cheersTokenRev s.data)

/-- `re.sub(r'\(🎖\d+\)$', '', flair_text)` — strip a trailing kudos count
token. -/
def stripKudosToken (s : String) : String :=
  String.mk (stripTokenList kudosTokenRev s.data)

/-- The new-flair-text computation of `CheersFeature.update_user_flair`,
with the count's decimal string `countStr` in place of
`f"{cheers_count}"`:

    flair_text = re.sub(r'\(:1DFV1:\d+\)$', '', flair_text).strip()
    new_flair_text = f"{flair_text} (:1DFV1:{cheers_count})".strip()
    if len(new_flair_text) > 64:
        allowed_length = 64 - len(f" (:1DFV1:{cheers_count})")
        flair_text = flair_text[:allowed_length].rstrip()
        new_flair_text = f"{flair_text} (:1DFV1:{cheers_count})"
-/
def cheersFlairText (existing countStr : String) : String :=
  let flair1 := pyStrip (stripCheersToken existing)
  let suffix := " (:1DFV1:" ++ countStr ++ ")"
  let newText := pyStrip (flair1 ++ suffix)
  if 64 < newText.length then
    let allowed : Int := 64 - (suffix.length : Int)
    pyRstrip (pySlice flair1 allowed) ++ suffix
  else newText

/-- The same computation in `KudosFeature.update_user_flair`, whose token
is `" (🎖" ++ countStr ++ ")"`. -/
def kudosFlairText (existing countStr : String) : String :=
  let flair1 := pyStrip (stripKudosToken existing)
  let suffix := " (🎖" ++ countStr ++ ")"
  let newText := pyStrip (flair1 ++ suffix)
  if 64 < newText.length then
    let allowed : Int := 64 - (suffix.length : Int)
    pyRstrip (pySlice flair1 allowed) ++ suffix
  else newText

/-! ## Dictionary lemmas -/

lemma dictFind?_dictSet (d : Ledger) (k k' : String) (v : Nat) :
    dictFind? (dictSet d k v) k' = if k = k' then some v else dictFind? d k' := by
  induction d with
  | nil => simp [dictSet, dictFind?]
  | cons p rest ih =>
    by_cases h : p.1 = k
    · simp only [dictSet, if_pos h, dictFind?]
      split_ifs with h1 h2 <;> simp_all
    · simp only [dictSet, if_neg h, dictFind?, ih]
      split_ifs with h1 h2 <;> simp_all

lemma dictGet_dictSet (d : Ledger) (k k' : String) (v dflt : Nat) :
    dictGet (dictSet d k v) k' dflt = if k = k' then v else dictGet d k' dflt := by
  unfold dictGet
  rw [dictFind?_dictSet]
  split_ifs <;> rfl

/-! ## C4 — concurrent increments -/

/-- Amended C4, positive part: increments performed while holding the
instance lock (as `handle_cheers` does for the received-count ledger
`cheers_data`) are atomic read-modify-writes, so any interleaving
of `n` threads is a serialization `runIncrs` of whole increments, and the
handle's final count is its initial count plus the number of increments
addressed to it: none is lost. -/
theorem locked_increments_never_lost (d : Ledger) (ops : List String) (k : String) :
    dictGet (runIncrs d ops) k 0 = dictGet d k 0 + ops.count k := by
  induction ops generalizing d with
  | nil => simp [runIncrs]
  | cons op rest ih =>
    rw [runIncrs, ih, incrLocked, dictGet_dictSet, List.count_cons]
    by_cases h : op = k
    · simp [h]; omega
    · have : ¬ ((op == k) = true) := by simpa using h
      simp [h, this]

/-- C4 counterexample: the kudos increment (kudos.py lines 161–162) and
the cheers given-count increment (cheers.py line 195) are *not*
lock-guarded, so two threads can both read the count before either
writes.  In that interleaving — thread 1 reads 0, thread 2 reads 0,
thread 1 writes 1, thread 2 writes 1 — two concurrent increments on
handle `"bob"` starting from an empty ledger leave a final count of 1,
not the initial count plus 2 that the claim requires. -/
theorem kudos_lost_update_counterexample :
    dictGet (kudosWriteCount (kudosWriteCount [] "bob" (kudosReadCount [] "bob"))
        "bob" (kudosReadCount [] "bob")) "bob" 0 = 1 ∧
    dictGet (kudosWriteCount (kudosWriteCount [] "bob" (kudosReadCount [] "bob"))
        "bob" (kudosReadCount [] "bob")) "bob" 0 ≠ 0 + 2 := by
  decide

/-! ## C7 — startup loading -/

/-- Amended C7: at startup a *missing* file is treated as the empty
mapping, and a well-formed file loads its contents; but a *malformed*
file is not logged-and-treated-as-empty — `json.load`'s parse error
propagates out of `load_json_data` uncaught. -/
theorem load_json_missing_empty_malformed_raises :
    load_json_data none = Except.ok [] ∧
    (∀ e, load_json_data (some (Except.error e)) = Except.error e) ∧
    (∀ d, load_json_data (some (Except.ok d)) = Except.ok d) :=
  ⟨rfl, fun _ => rfl, fun _ => rfl⟩

/-- C7 counterexample: on a malformed file (here `json.load` raises
`"Expecting value: line 1 column 1 (char 0)"`, as for an empty or
non-JSON file) `load_json_data` does *not* return the empty mapping —
the exception propagates, so a malformed file at startup is fatal to the
feature's construction. -/
theorem malformed_file_not_treated_empty_counterexample :
    load_json_data (some (Except.error "Expecting value: line 1 column 1 (char 0)"))
      ≠ Except.ok [] :=
  fun h => Except.noConfusion h

/-! ## Cheers pipeline lemmas -/

/-- On the success path (target exists, is a member, is not the awarder,
and all security checks pass) `handle_cheers` updates the three mappings
and emits the five effects in program order. -/
lemma handle_cheers_success (sig m0 reason : String) (a : Awarder) (now : Nat)
    (st : CheersState)
    (hself : pyLower (cheersNormalizeTarget m0) ≠ pyLower a.name)
    (hca : (can_award_cheers st.rateLimitData now a).1 = true) :
    handle_cheers sig true true m0 a reason now st =
      (⟨dictSet st.cheersData (pyLower (cheersNormalizeTarget m0))
          (dictGet st.cheersData (pyLower (cheersNormalizeTarget m0)) 0 + 1),
        dictSet st.rateLimitData a.name now,
        dictSet st.cheersAwardedData (pyLower a.name)
          (dictGet st.cheersAwardedData (pyLower a.name) 0 + 1)⟩,
       [.saveRateLimit, .saveCheers, .saveAwarded,
        .updateFlair (cheersNormalizeTarget m0)
          (dictGet st.cheersData (pyLower (cheersNormalizeTarget m0)) 0 + 1),
        .reply ("u/" ++ a.name ++ " has awarded cheers to u/" ++
          cheersNormalizeTarget m0 ++ "! They now have " ++
          toString (dictGet st.cheersData (pyLower (cheersNormalizeTarget m0)) 0 + 1) ++
          " cheers." ++ reason ++ sig)]) := by
  simp [handle_cheers, hself, hca]

/-- When the awarder's cooldown entry is younger than 600 seconds,
`handle_cheers` (with the three earlier checks passing) rejects with the
cooldown message and changes nothing. -/
lemma handle_cheers_cooldown_reject (sig m0 reason : String) (a : Awarder)
    (T now : Nat) (st : CheersState)
    (hself : pyLower (cheersNormalizeTarget m0) ≠ pyLower a.name)
    (hT : dictFind? st.rateLimitData a.name = some T)
    (hlt : now - T < 600) :
    handle_cheers sig true true m0 a reason now st =
      (st, [.reply ("You can only award cheers once every 10 minutes." ++ sig)]) := by
  have hca : can_award_cheers st.rateLimitData now a =
      (false, "You can only award cheers once every 10 minutes.") := by
    rw [can_award_cheers, hT]
    exact if_pos hlt
  simp [handle_cheers, hself, hca]

/-! ## C2 — cooldown enforcement -/

/-- Amended C2 (cheers variant): with a last-success timestamp `T`
recorded for the awarder and the target checks passing, an attempt at
`now` with `now - T < 600` is rejected with the cooldown message and no
state change, while an attempt with `now - T ≥ 600` passes the cooldown
check — `can_award_cheers` then behaves exactly as if the awarder had no
cooldown entry at all (`can_award_cheers_rest`, the age/karma tail).
In particular an attempt at `T + 599` is rejected and one at `T + 601`
passes the cooldown check. -/
theorem cheers_cooldown_enforced (sig m0 reason : String) (a : Awarder)
    (T now : Nat) (st : CheersState)
    (hself : pyLower (cheersNormalizeTarget m0) ≠ pyLower a.name)
    (hT : dictFind? st.rateLimitData a.name = some T) :
    (now - T < 600 →
      handle_cheers sig true true m0 a reason now st =
        (st, [.reply ("You can only award cheers once every 10 minutes." ++ sig)])) ∧
    (600 ≤ now - T →
      can_award_cheers st.rateLimitData now a = can_award_cheers_rest now a) := by
  constructor
  · intro hlt
    exact handle_cheers_cooldown_reject sig m0 reason a T now st hself hT hlt
  · intro hge
    rw [can_award_cheers, hT]
    exact if_neg (by omega)

/-- Witness for `cheers_cooldown_enforced`: awarder `alice` (account
created at epoch 0, karma 100) last succeeded at `T = 1000000`; at
`T + 599` the attempt is rejected with the cooldown message, and at
`T + 601` the cooldown check passes (and the age/karma tail in fact
accepts). -/
theorem cheers_cooldown_enforced_witness :
    (handle_cheers "" true true "u/Bob" ⟨"alice", 0, 100⟩ "" 1000599
        ⟨[], [("alice", 1000000)], []⟩ =
      (⟨[], [("alice", 1000000)], []⟩,
       [.reply "You can only award cheers once every 10 minutes."])) ∧
    (can_award_cheers [("alice", 1000000)] 1000601 ⟨"alice", 0, 100⟩ =
        can_award_cheers_rest 1000601 ⟨"alice", 0, 100⟩ ∧
      can_award_cheers_rest 1000601 ⟨"alice", 0, 100⟩ = (true, "")) :=
  ⟨(cheers_cooldown_enforced "" "u/Bob" "" ⟨"alice", 0, 100⟩ 1000000 1000599
      ⟨[], [("alice", 1000000)], []⟩ (by decide) (by decide)).1 (by decide),
   (cheers_cooldown_enforced "" "u/Bob" "" ⟨"alice", 0, 100⟩ 1000000 1000601
      ⟨[], [("alice", 1000000)], []⟩ (by decide) (by decide)).2 (by decide),
   by decide⟩

/-- C2 counterexample (kudos variant): the claim fails for kudos.
`handle_kudos` never calls `can_award_kudos` (which is dead code) and
never writes `rate_limit_data` — it does not even take the current time
as an input.  Concretely, awarder `alice` awards kudos to `u/bob` twice
in immediate succession (hence within any 600-second window): the second
attempt is *not* rejected — it succeeds, credits a second point and
posts the success reply. -/
theorem kudos_cooldown_unenforced_counterexample :
    (handle_kudos "" true true "u/bob" ⟨"alice", 0, 0⟩
        (handle_kudos "" true true "u/bob" ⟨"alice", 0, 0⟩ ⟨[], []⟩).1).1.kudosData
      = [("bob", 2)] ∧
    (handle_kudos "" true true "u/bob" ⟨"alice", 0, 0⟩
        (handle_kudos "" true true "u/bob" ⟨"alice", 0, 0⟩ ⟨[], []⟩).1).2
      = [KudosEffect.saveKudos, KudosEffect.updateFlair "bob" 2,
         KudosEffect.reply "u/alice has awarded kudos to u/bob! They now have 2 kudos."] := by
  decide

/-! ## C3 — self-award rejection -/

/-- Amended C3 (cheers variant): whenever the normalized target handle
equals the awarder's handle case-insensitively, `handle_cheers` rejects
with the self-award message and changes no state — for *every* awarder,
time and state, i.e. regardless of cooldown, account age and karma. -/
theorem cheers_self_award_blocked (sig m0 reason : String) (a : Awarder)
    (now : Nat) (st : CheersState)
    (hself : pyLower (cheersNormalizeTarget m0) = pyLower a.name) :
    handle_cheers sig true true m0 a reason now st =
      (st, [.reply ("You cannot award cheers to yourself!" ++ sig)]) := by
  simp [handle_cheers, hself]

/-- Witness for `cheers_self_award_blocked`: `alice` (whose account is
brand new and has 0 karma, and who has no cooldown entry — other
eligibility is irrelevant) tries to award cheers to `u/Alice`; the
attempt is rejected with the self-award message and nothing changes. -/
theorem cheers_self_award_blocked_witness :
    handle_cheers "" true true "u/Alice" ⟨"alice", 0, 0⟩ "" 0 ⟨[], [], []⟩ =
      (⟨[], [], []⟩, [.reply "You cannot award cheers to yourself!"]) :=
  cheers_self_award_blocked "" "u/Alice" "" ⟨"alice", 0, 0⟩ 0 ⟨[], [], []⟩ (by decide)

/-- C3 counterexample (kudos variant): `handle_kudos` has no self-award
check at all.  `alice` awards kudos to `u/alice` — herself — and the
attempt is *not* rejected: it credits a point to her own entry, updates
her flair and posts the success reply. -/
theorem kudos_self_award_allowed_counterexample :
    handle_kudos "" true true "u/alice" ⟨"alice", 0, 0⟩ ⟨[], []⟩ =
      (⟨[("alice", 1)], []⟩,
       [KudosEffect.saveKudos, KudosEffect.updateFlair "alice" 1,
        KudosEffect.reply "u/alice has awarded kudos to u/alice! They now have 1 kudos."]) := by
  decide

/-! ## C5 — ledger key normalization -/

/-- Amended C5: on an accepted cheers award, the received-count ledger is
written under `pyLower` of the normalized target handle and the
given-count ledger under `pyLower` of the awarder's handle — case-variant
attempts address the same entries there — but the cooldown table
(`rate_limit_data`) is written under the *raw* `author.name`, not its
lowercase form (and the kudos ledger likewise uses the raw target
handle, see the counterexample). -/
theorem cheers_ledger_keys_lowercased (sig m0 reason : String) (a : Awarder)
    (now : Nat) (st : CheersState)
    (hself : pyLower (cheersNormalizeTarget m0) ≠ pyLower a.name)
    (hca : (can_award_cheers st.rateLimitData now a).1 = true) :
    (handle_cheers sig true true m0 a reason now st).1.cheersData =
      dictSet st.cheersData (pyLower (cheersNormalizeTarget m0))
        (dictGet st.cheersData (pyLower (cheersNormalizeTarget m0)) 0 + 1) ∧
    (handle_cheers sig true true m0 a reason now st).1.cheersAwardedData =
      dictSet st.cheersAwardedData (pyLower a.name)
        (dictGet st.cheersAwardedData (pyLower a.name) 0 + 1) ∧
    (handle_cheers sig true true m0 a reason now st).1.rateLimitData =
      dictSet st.rateLimitData a.name now := by
  rw [handle_cheers_success sig m0 reason a now st hself hca]
  exact ⟨rfl, rfl, rfl⟩

/-- Witness for `cheers_ledger_keys_lowercased`: `alice` awards cheers to
the mixed-case target `u/BoB`; the received count is credited under
`"bob"`, the given count under `"alice"`, and the cooldown entry under
the raw `"alice"`. -/
theorem cheers_ledger_keys_lowercased_witness :
    (handle_cheers "" true true "u/BoB" ⟨"alice", 0, 100⟩ "" 1000000
        ⟨[], [], []⟩).1.cheersData =
      dictSet [] (pyLower (cheersNormalizeTarget "u/BoB"))
        (dictGet [] (pyLower (cheersNormalizeTarget "u/BoB")) 0 + 1) ∧
    (handle_cheers "" true true "u/BoB" ⟨"alice", 0, 100⟩ "" 1000000
        ⟨[], [], []⟩).1.cheersAwardedData =
      dictSet [] (pyLower "alice") (dictGet [] (pyLower "alice") 0 + 1) ∧
    (handle_cheers "" true true "u/BoB" ⟨"alice", 0, 100⟩ "" 1000000
        ⟨[], [], []⟩).1.rateLimitData =
      dictSet [] "alice" 1000000 :=
  cheers_ledger_keys_lowercased "" "u/BoB" "" ⟨"alice", 0, 100⟩ 1000000
    ⟨[], [], []⟩ (by decide) (by decide)

/-- C5 counterexample: the claim fails for the cooldown table.  Awarder
`Alice` (mixed case) succeeds in an award; the persisted cooldown entry
is keyed `"Alice"`, and a lookup under the canonical lowercase form
`"alice"` misses it — so a later attempt by the same user typed as
`alice` would not find the entry.  (The kudos ledger has the same flaw:
its keys are the raw `mentioned_username[2:]`, never lowercased.) -/
theorem cooldown_key_not_lowercased_counterexample :
    (handle_cheers "" true true "bob" ⟨"Alice", 0, 100⟩ "" 1000000
        ⟨[], [], []⟩).1.rateLimitData = [("Alice", 1000000)] ∧
    dictFind? (handle_cheers "" true true "bob" ⟨"Alice", 0, 100⟩ "" 1000000
        ⟨[], [], []⟩).1.rateLimitData (pyLower "Alice") = none := by
  decide

/-! ## C6 — effect order on an accepted cheers award -/

/-- C6: on an accepted cheers award the effect order is: persist the
awarder's cooldown timestamp (`save_json_data(rate_limit_data, ...)`),
then increment and persist the recipient's ledger count, then persist
the given-count ledger, then the flair update, then the acknowledgment
reply.  Consequently every prefix of the effect trace (everything
executed before a crash) that contains the ledger persist also contains
the cooldown persist, and every prefix containing the reply contains the
ledger persist. -/
theorem cheers_cooldown_persisted_before_ledger (sig m0 reason : String)
    (a : Awarder) (now : Nat) (st : CheersState)
    (hself : pyLower (cheersNormalizeTarget m0) ≠ pyLower a.name)
    (hca : (can_award_cheers st.rateLimitData now a).1 = true) :
    (handle_cheers sig true true m0 a reason now st).2 =
      [.saveRateLimit, .saveCheers, .saveAwarded,
       .updateFlair (cheersNormalizeTarget m0)
         (dictGet st.cheersData (pyLower (cheersNormalizeTarget m0)) 0 + 1),
       .reply ("u/" ++ a.name ++ " has awarded cheers to u/" ++
         cheersNormalizeTarget m0 ++ "! They now have " ++
         toString (dictGet st.cheersData (pyLower (cheersNormalizeTarget m0)) 0 + 1) ++
         " cheers." ++ reason ++ sig)] ∧
    (∀ k, CheersEffect.saveCheers ∈
        ((handle_cheers sig true true m0 a reason now st).2.take k) →
      CheersEffect.saveRateLimit ∈
        ((handle_cheers sig true true m0 a reason now st).2.take k)) ∧
    (∀ k c, CheersEffect.reply c ∈
        ((handle_cheers sig true true m0 a reason now st).2.take k) →
      CheersEffect.saveCheers ∈
        ((handle_cheers sig true true m0 a reason now st).2.take k)) := by
  rw [handle_cheers_success sig m0 reason a now st hself hca]
  refine ⟨rfl, ?_, ?_⟩
  · intro k hk
    match k with
    | 0 => simp at hk
    | k + 1 =>
      simp only [List.take_succ_cons]
      exact List.mem_cons_self _ _
  · intro k c hk
    match k, hk with
    | 0, hk => simp at hk
    | 1, hk => simp at hk
    | 2, hk => simp at hk
    | 3, hk => simp at hk
    | 4, hk => simp at hk
    | k + 5, hk =>
      rw [List.take_of_length_le (by simp)]
      simp

/-- Witness for `cheers_cooldown_persisted_before_ledger`: the concrete
accepted award of `alice` to `u/Bob`, with the trace spelled out; the
prefix properties instantiated at prefix length 2 (the crash point right
after the ledger persist). -/
theorem cheers_cooldown_persisted_before_ledger_witness :
    (handle_cheers "" true true "u/Bob" ⟨"alice", 0, 100⟩ "" 1000000
        ⟨[], [], []⟩).2 =
      [.saveRateLimit, .saveCheers, .saveAwarded,
       .updateFlair (cheersNormalizeTarget "u/Bob")
         (dictGet [] (pyLower (cheersNormalizeTarget "u/Bob")) 0 + 1),
       .reply ("u/" ++ "alice" ++ " has awarded cheers to u/" ++
         cheersNormalizeTarget "u/Bob" ++ "! They now have " ++
         toString (dictGet [] (pyLower (cheersNormalizeTarget "u/Bob")) 0 + 1) ++
         " cheers." ++ "" ++ "")] ∧
    (CheersEffect.saveCheers ∈
        ((handle_cheers "" true true "u/Bob" ⟨"alice", 0, 100⟩ "" 1000000
          ⟨[], [], []⟩).2.take 2) →
      CheersEffect.saveRateLimit ∈
        ((handle_cheers "" true true "u/Bob" ⟨"alice", 0, 100⟩ "" 1000000
          ⟨[], [], []⟩).2.take 2)) :=
  ⟨(cheers_cooldown_persisted_before_ledger "" "u/Bob" "" ⟨"alice", 0, 100⟩
      1000000 ⟨[], [], []⟩ (by decide) (by decide)).1,
   (cheers_cooldown_persisted_before_ledger "" "u/Bob" "" ⟨"alice", 0, 100⟩
      1000000 ⟨[], [], []⟩ (by decide) (by decide)).2.1 2⟩

/-! ## C10 — `lstrip` semantics of the target token -/

lemma dropWhile_dropWhile_of_imp (p q : Char → Bool)
    (h : ∀ c, q c = true → p c = true) (l : List Char) :
    (l.dropWhile p).dropWhile q = l.dropWhile p := by
  induction l with
  | nil => rfl
  | cons c rest ih =>
    by_cases hc : p c = true
    · simp [List.dropWhile_cons, hc, ih]
    · have hq : ¬ q c = true := fun hqc => hc (h c hqc)
      simp [List.dropWhile_cons, hc, hq]

/-- C10: the handle credited by the cheers award command is the target
token with *all* leading characters from the set `{'u', '/'}` removed
(Python `str.lstrip('u/')` semantics; the subsequent `.lstrip('/')` is a
no-op since no leading `'/'` can survive the first strip).  Consequently
a bare handle beginning with the letter `u` is resolved and credited
under a different handle than the one named: awarding to `ulysses`
looks up and credits `lysses` — the existence/membership lookups, the
ledger key, the flair update and the reply all use `lysses`, and the
entry `ulysses` stays absent. -/
theorem cheers_target_lstrip_semantics :
    (∀ m, cheersNormalizeTarget m = pyLstrip ['u', '/'] m) ∧
    cheersNormalizeTarget "u/bob" = "bob" ∧
    cheersNormalizeTarget "ulysses" = "lysses" ∧
    (handle_cheers "" true true "ulysses" ⟨"alice", 0, 100⟩ "" 1000000
        ⟨[], [], []⟩).1.cheersData = [("lysses", 1)] ∧
    dictGet (handle_cheers "" true true "ulysses" ⟨"alice", 0, 100⟩ "" 1000000
        ⟨[], [], []⟩).1.cheersData "ulysses" 0 = 0 ∧
    ((handle_cheers "" true true "ulysses" ⟨"alice", 0, 100⟩ "" 1000000
        ⟨[], [], []⟩).2.contains (CheersEffect.updateFlair "lysses" 1)) = true := by
  refine ⟨?_, by decide, by decide, by decide, by decide, by decide⟩
  intro m
  show String.mk (((m.data.dropWhile _).dropWhile _)) = _
  rw [dropWhile_dropWhile_of_imp]
  · rfl
  · intro c hq
    simp only [List.contains_cons] at hq ⊢
    rcases Bool.or_eq_true_iff.mp hq with h | h
    · simp_all
    · simp at h

/-! ## C8 — leaderboard order -/

/-- C8: for every ledger, the `!cheers top` leaderboard is the ledger
sorted by count descending (every earlier entry's count is ≥ every later
entry's), truncated to the first 5; the sort is stable — any pair of
entries appearing in insertion order with the earlier count ≥ the later
stays in that order — and on the ledger `{a:3, b:5, c:5, d:1}` inserted
in order a,b,c,d the result is `[(b,5), (c,5), (a,3), (d,1)]`, whose
top-3 prefix is `[(b,5), (c,5), (a,3)]` with `b` before `c`. -/
theorem cheers_leaderboard_top5_stable :
    (∀ d : Ledger, List.Sorted (fun x y : String × Nat => y.2 ≤ x.2) (top_users d)) ∧
    (∀ d : Ledger, (top_users d).length ≤ 5) ∧
    (∀ (a b : String × Nat) (d : Ledger), [a, b].Sublist d → b.2 ≤ a.2 →
      [a, b].Sublist (sorted_cheers d)) ∧
    top_users [("a", 3), ("b", 5), ("c", 5), ("d", 1)] =
      [("b", 5), ("c", 5), ("a", 3), ("d", 1)] ∧
    (top_users [("a", 3), ("b", 5), ("c", 5), ("d", 1)]).take 3 =
      [("b", 5), ("c", 5), ("a", 3)] := by
  haveI : IsTotal (String × Nat) (fun x y : String × Nat => y.2 ≤ x.2) :=
    ⟨fun a b => le_total b.2 a.2⟩
  haveI : IsTrans (String × Nat) (fun x y : String × Nat => y.2 ≤ x.2) :=
    ⟨fun _ _ _ h1 h2 => le_trans h2 h1⟩
  refine ⟨?_, ?_, ?_, by decide, by decide⟩
  · intro d
    exact List.Pairwise.sublist (List.take_sublist 5 _)
      (List.sorted_insertionSort _ d)
  · intro d
    exact List.length_take_le 5 (sorted_cheers d)
  · intro a b d hsub hle
    exact List.pair_sublist_insertionSort hle hsub

/-- Witness for `cheers_leaderboard_top5_stable`: the stability clause
instantiated on the tied pair `("b",5)`, `("c",5)` of the spec's example
ledger — the pair stays in insertion order in the sorted output. -/
theorem cheers_leaderboard_top5_stable_witness :
    [(("b" : String), 5), (("c" : String), 5)].Sublist
      (sorted_cheers [("a", 3), ("b", 5), ("c", 5), ("d", 1)]) :=
  cheers_leaderboard_top5_stable.2.2.1 ("b", 5) ("c", 5)
    [("a", 3), ("b", 5), ("c", 5), ("d", 1)] (by decide) (by decide)

/-! ## C9 — flair text update -/

lemma takeWhile_append_all (p : Char → Bool) (l1 l2 : List Char)
    (h1 : ∀ c ∈ l1, p c = true) :
    (l1 ++ l2).takeWhile p = l1 ++ l2.takeWhile p := by
  induction l1 with
  | nil => rfl
  | cons c rest ih =>
    simp only [List.cons_append,
      List.takeWhile_cons_of_pos (h1 c (List.mem_cons_self c rest))]
    rw [ih fun c hc => h1 c (List.mem_cons_of_mem _ hc)]

lemma dropWhile_append_all (p : Char → Bool) (l1 l2 : List Char)
    (h1 : ∀ c ∈ l1, p c = true) :
    (l1 ++ l2).dropWhile p = l2.dropWhile p := by
  induction l1 with
  | nil => rfl
  | cons c rest ih =>
    simp only [List.cons_append,
      List.dropWhile_cons_of_pos (h1 c (List.mem_cons_self c rest))]
    exact ih fun c hc => h1 c (List.mem_cons_of_mem _ hc)

/-- `re.sub(r'\(:1DFV1:\d+\)$', '', ·)` removes a well-formed trailing
count token: for any base text `s` and nonempty digit string `ds`,
stripping `s ++ "(:1DFV1:" ++ ds ++ ")"` gives back `s`. -/
lemma stripCheersToken_append (s : String) (ds : List Char)
    (hne : ds ≠ []) (hds : ∀ c ∈ ds, c.isDigit = true) :
    stripCheersToken (s ++ "(:1DFV1:" ++ String.mk ds ++ ")") = s := by
  have hdata : (s ++ "(:1DFV1:" ++ String.mk ds ++ ")").data.reverse =
      ')' :: (ds.reverse ++ (cheersTokenRev ++ s.data.reverse)) := by
    show ((s.data ++ ("(:1DFV1:" : String).data ++ ds) ++ (")" : String).data).reverse = _
    rw [show ((")" : String).data) = [')'] from rfl]
    simp only [List.reverse_append, List.reverse_cons, List.reverse_nil,
      List.nil_append, List.cons_append, List.append_assoc]
    rfl
  have hdsrev : ∀ c ∈ ds.reverse, c.isDigit = true := by
    intro c hc
    exact hds c (List.mem_reverse.mp hc)
  have htake : (ds.reverse ++ (cheersTokenRev ++ s.data.reverse)).takeWhile
      Char.isDigit = ds.reverse := by
    rw [takeWhile_append_all _ _ _ hdsrev]
    rw [show cheersTokenRev ++ s.data.reverse =
      ':' :: (['1', 'V', 'F', 'D', '1', ':', '('] ++ s.data.reverse) from rfl]
    rw [List.takeWhile_cons_of_neg (by decide)]
    simp
  have hdrop : (ds.reverse ++ (cheersTokenRev ++ s.data.reverse)).dropWhile
      Char.isDigit = cheersTokenRev ++ s.data.reverse := by
    rw [dropWhile_append_all _ _ _ hdsrev]
    rw [show cheersTokenRev ++ s.data.reverse =
      ':' :: (['1', 'V', 'F', 'D', '1', ':', '('] ++ s.data.reverse) from rfl]
    rw [List.dropWhile_cons_of_neg (by decide)]
  rw [stripCheersToken]
  simp only [stripTokenList, hdata, if_pos rfl, htake, hdrop]
  have hcond : ds.reverse.length ≠ 0 ∧
      List.take cheersTokenRev.length (cheersTokenRev ++ s.data.reverse) =
        cheersTokenRev := by
    constructor
    · simpa using hne
    · exact List.take_left _ _
  rw [if_pos hcond, List.drop_left, List.reverse_reverse]
  simp

lemma pyRstrip_length_le (s : String) : (pyRstrip s).length ≤ s.length := by
  show (trimRightList s.data).length ≤ s.data.length
  unfold trimRightList
  calc ((s.data.reverse.dropWhile Char.isWhitespace).reverse).length
      = (s.data.reverse.dropWhile Char.isWhitespace).length := by
        rw [List.length_reverse]
    _ ≤ s.data.reverse.length := (List.dropWhile_sublist _).length_le
    _ = s.data.length := by rw [List.length_reverse]

/-- The truncation branch always fits: for any base text and any suffix
of at most 64 characters, `flair_text[:64 - len(suffix)].rstrip() +
suffix` has at most 64 characters. -/
lemma flair_truncate_length (flair1 suffix : String)
    (h : suffix.length ≤ 64) :
    (pyRstrip (pySlice flair1 (64 - (suffix.length : Int))) ++ suffix).length
      ≤ 64 := by
  rw [String.length_append]
  have h1 : (pySlice flair1 (64 - (suffix.length : Int))).length ≤
      64 - suffix.length := by
    rw [pySlice, if_pos (by omega)]
    show (List.take _ _).length ≤ _
    calc (List.take ((64 - (suffix.length : Int)).toNat) flair1.data).length
        ≤ (64 - (suffix.length : Int)).toNat := List.length_take_le _ _
      _ = 64 - suffix.length := by omega
  have h2 := pyRstrip_length_le (pySlice flair1 (64 - (suffix.length : Int)))
  omega

/-- Amended C9, positive part: whenever the appended count token itself
fits in the 64-character limit (a count of at most 54 decimal digits for
cheers, 60 for kudos — always the case for counts that grow by 1 per
award), the computed flair text strips any previous trailing token,
re-appends one token with the new count, and is at most 64 characters:
the base text is truncated to make room. -/
theorem flair_text_limit :
    (∀ existing countStr : String, countStr.length + 10 ≤ 64 →
      (cheersFlairText existing countStr).length ≤ 64) ∧
    (∀ existing countStr : String, countStr.length + 4 ≤ 64 →
      (kudosFlairText existing countStr).length ≤ 64) ∧
    (∀ (s : String) (ds : List Char), ds ≠ [] → (∀ c ∈ ds, c.isDigit = true) →
      stripCheersToken (s ++ "(:1DFV1:" ++ String.mk ds ++ ")") = s) := by
  refine ⟨?_, ?_, stripCheersToken_append⟩
  · intro existing countStr h
    have hsuf : (" (:1DFV1:" ++ countStr ++ ")").length = countStr.length + 10 := by
      rw [String.length_append, String.length_append,
        show (" (:1DFV1:" : String).length = 9 from rfl,
        show (")" : String).length = 1 from rfl]
      omega
    rw [cheersFlairText]
    split_ifs with hlong
    · exact flair_truncate_length _ _ (by omega)
    · omega
  · intro existing countStr h
    have hsuf : (" (🎖" ++ countStr ++ ")").length = countStr.length + 4 := by
      rw [String.length_append, String.length_append,
        show (" (🎖" : String).length = 3 from rfl,
        show (")" : String).length = 1 from rfl]
      omega
    rw [kudosFlairText]
    split_ifs with hlong
    · exact flair_truncate_length _ _ (by omega)
    · omega

/-- Witness for `flair_text_limit`: a 60-character base flair and count 7
— the update truncates the base and the result is exactly 64 characters;
and stripping a previous `(:1DFV1:12)` token recovers the base text. -/
theorem flair_text_limit_witness :
    (cheersFlairText "aaaaaaaaaaaaaaaaaaaaaaaaaaaaaaaaaaaaaaaaaaaaaaaaaaaaaaaaaaaa"
        "7").length ≤ 64 ∧
    stripCheersToken ("Diamond Hands " ++ "(:1DFV1:" ++ String.mk ['1', '2'] ++ ")") =
      "Diamond Hands " :=
  ⟨flair_text_limit.1
    "aaaaaaaaaaaaaaaaaaaaaaaaaaaaaaaaaaaaaaaaaaaaaaaaaaaaaaaaaaaa" "7" (by decide),
   flair_text_limit.2.2 "Diamond Hands " ['1', '2'] (by decide) (by decide)⟩

/-- C9 counterexample: the claim as stated quantifies over *every* new
count.  For a count of 55 decimal digits (e.g. `10^54`) the token alone
is 65 characters, `allowed_length` is negative, and Python's negative
slice `flair_text[:-1]` keeps most of the base text instead of
truncating it, so with the 10-character base flair `"abcdefghij"` the
resulting flair text is 74 characters — it exceeds the 64-character
limit. -/
theorem flair_overlong_count_counterexample :
    (cheersFlairText "abcdefghij"
        "1000000000000000000000000000000000000000000000000000000").length = 74 ∧
    64 < (cheersFlairText "abcdefghij"
        "1000000000000000000000000000000000000000000000000000000").length := by
  decide

/-! ## C1 — rate limiter sliding-window bound

The proof maintains, across the serialized sequence of `acquire()` calls,
the invariant that `self.calls` is exactly the list of past return times
within `period` of the last return, every past return is at most the last
return, and every window of length `period` contains at most `maxCalls`
returns. -/

lemma rlRun_length (maxCalls period : Nat) :
    ∀ (arrivals calls : List Nat),
      (rlRun maxCalls period calls arrivals).length = arrivals.length := by
  intro arrivals
  induction arrivals with
  | nil => intro calls; rfl
  | cons a rest ih => intro calls; simp [rlRun, ih]

lemma pruneCalls_filter (period last a : Nat) (hla : last ≤ a) (rets : List Nat) :
    pruneCalls period a (rets.filter (fun r => decide (last - r < period))) =
      rets.filter (fun r => decide (a - r < period)) := by
  unfold pruneCalls
  rw [List.filter_filter]
  apply List.filter_congr
  intro x _
  by_cases h : a - x < period
  · have h2 : last - x < period := lt_of_le_of_lt (Nat.sub_le_sub_right hla x) h
    simp [h, h2]
  · simp [h]

lemma window_count_le (maxCalls period x : Nat)
    (rets : List Nat) (hle : ∀ r ∈ rets, r ≤ x)
    (hW : ∀ t, rets.countP (inWindow period t) ≤ maxCalls) :
    rets.countP (fun r => decide (x - r < period)) ≤ maxCalls := by
  refine le_trans (List.countP_mono_left ?_) (hW (x + 1 - period))
  intro r hr hpred
  have hrx := hle r hr
  simp only [decide_eq_true_eq] at hpred
  simp only [inWindow, Bool.and_eq_true, decide_eq_true_eq]
  omega

lemma acquire_of_lt (maxCalls period : Nat) (calls : List Nat) (now : Nat)
    (h : (pruneCalls period now calls).length < maxCalls) :
    acquire maxCalls period calls now =
      (pruneCalls period now calls ++ [now], now) := by
  unfold acquire
  rw [if_neg (by omega)]

lemma acquire_of_ge (maxCalls period : Nat) (calls : List Nat) (now c0 : Nat)
    (tl : List Nat) (hc : pruneCalls period now calls = c0 :: tl)
    (h : maxCalls ≤ (pruneCalls period now calls).length) :
    acquire maxCalls period calls now =
      (pruneCalls period (now + (period - (now - c0))) (c0 :: tl)
        ++ [now + (period - (now - c0))], now + (period - (now - c0))) := by
  unfold acquire
  rw [if_pos h, hc]

lemma rlValid_cons (maxCalls period : Nat) (calls : List Nat) (last a : Nat)
    (rest : List Nat) :
    rlValid maxCalls period calls last (a :: rest) = true ↔
      last ≤ a ∧
      rlValid maxCalls period (acquire maxCalls period calls a).1
        (acquire maxCalls period calls a).2 rest = true := by
  show (if last ≤ a then
      rlValid maxCalls period (acquire maxCalls period calls a).1
        (acquire maxCalls period calls a).2 rest
    else false) = true ↔ _
  split_ifs with h <;> simp [h]

lemma rlRun_window_aux (maxCalls period : Nat) (hmc : 0 < maxCalls)
    (hp : 0 < period) :
    ∀ (arrivals rets : List Nat) (last : Nat),
      (∀ r ∈ rets, r ≤ last) →
      (∀ t, rets.countP (inWindow period t) ≤ maxCalls) →
      rlValid maxCalls period
        (rets.filter (fun r => decide (last - r < period))) last arrivals = true →
      ∀ t, (rets ++ rlRun maxCalls period
          (rets.filter (fun r => decide (last - r < period))) arrivals).countP
        (inWindow period t) ≤ maxCalls := by
  intro arrivals
  induction arrivals with
  | nil =>
    intro rets last _ hW _ t
    simpa [rlRun] using hW t
  | cons a rest ih =>
    intro rets last hle hW hv t
    rw [rlValid_cons] at hv
    obtain ⟨hla, hvrest⟩ := hv
    have hc1 : pruneCalls period a
        (rets.filter (fun r => decide (last - r < period))) =
        rets.filter (fun r => decide (a - r < period)) :=
      pruneCalls_filter period last a hla rets
    have hlen_le : (rets.filter (fun r => decide (a - r < period))).length
        ≤ maxCalls := by
      rw [← List.countP_eq_length_filter]
      exact window_count_le maxCalls period a rets
        (fun r hr => le_trans (hle r hr) hla) hW
    by_cases hlen : maxCalls ≤
        (pruneCalls period a (rets.filter (fun r => decide (last - r < period)))).length
    · -- sleep branch: the pruned list is full
      rw [hc1] at hlen
      obtain ⟨c0, tl, hc0⟩ :
          ∃ c0 tl, rets.filter (fun r => decide (a - r < period)) = c0 :: tl := by
        cases hl : rets.filter (fun r => decide (a - r < period)) with
        | nil => rw [hl] at hlen; simp at hlen; omega
        | cons x xs => exact ⟨x, xs, rfl⟩
      have hc0mem : c0 ∈ rets ∧ (a - c0 < period) := by
        have : c0 ∈ rets.filter (fun r => decide (a - r < period)) := by
          rw [hc0]; exact List.mem_cons_self _ _
        simpa using this
      have hc0a : c0 ≤ a := le_trans (hle c0 hc0mem.1) hla
      -- the return time after sleeping
      set n2 := a + (period - (a - c0)) with hn2def
      have hn2 : n2 = c0 + period := by
        have := hc0mem.2
        omega
      have han2 : a ≤ n2 := by omega
      have hacq := acquire_of_ge maxCalls period
        (rets.filter (fun r => decide (last - r < period))) a c0 tl
        (hc1.trans hc0) (by rw [hc1, hc0]; simpa [hc0] using hlen)
      rw [← hn2def] at hacq
      have hfst : (acquire maxCalls period
          (rets.filter (fun r => decide (last - r < period))) a).1 =
          pruneCalls period n2 (c0 :: tl) ++ [n2] := by rw [hacq]
      have hsnd : (acquire maxCalls period
          (rets.filter (fun r => decide (last - r < period))) a).2 = n2 := by
        rw [hacq]
      have hprune2 : pruneCalls period n2 (c0 :: tl) =
          rets.filter (fun r => decide (n2 - r < period)) := by
        rw [← hc0, ← hc1, pruneCalls_filter period last a hla,
          pruneCalls_filter period a n2 han2]
      have hchar : pruneCalls period n2 (c0 :: tl) ++ [n2] =
          (rets ++ [n2]).filter (fun r => decide (n2 - r < period)) := by
        rw [hprune2, List.filter_append]
        simp [hp]
      have hle' : ∀ r ∈ rets ++ [n2], r ≤ n2 := by
        intro r hr
        rcases List.mem_append.mp hr with h | h
        · exact le_trans (le_trans (hle r h) hla) han2
        · simp at h; omega
      -- the freshly pruned list lost at least its head
      have hshort : (pruneCalls period n2 (c0 :: tl)).length ≤ tl.length := by
        unfold pruneCalls
        rw [List.filter_cons_of_neg (by simp only [decide_eq_true_eq]; omega)]
        exact List.length_filter_le _ tl
      have htl : tl.length + 1 ≤ maxCalls := by
        have h := hlen_le
        rw [hc0] at h
        simpa using h
      have hW' : ∀ u, (rets ++ [n2]).countP (inWindow period u) ≤ maxCalls := by
        intro u
        rw [List.countP_append]
        by_cases hwin : inWindow period u n2 = true
        · have hmono : rets.countP (inWindow period u) ≤
              rets.countP (fun r => decide (n2 - r < period)) := by
            apply List.countP_mono_left
            intro r _ hpred
            simp only [inWindow, Bool.and_eq_true, decide_eq_true_eq] at hpred hwin
            exact decide_eq_true (by omega)
          have hcount : rets.countP (fun r => decide (n2 - r < period)) =
              (pruneCalls period n2 (c0 :: tl)).length := by
            rw [hprune2, List.countP_eq_length_filter]
          have hb : rets.countP (inWindow period u) ≤ tl.length := by
            rw [hcount] at hmono
            omega
          have h1 : List.countP (inWindow period u) [n2] = 1 := by simp [hwin]
          omega
        · have h1 : List.countP (inWindow period u) [n2] = 0 := by simp [hwin]
          have := hW u
          omega
      rw [hfst, hsnd, hchar] at hvrest
      have hres := ih (rets ++ [n2]) n2 hle' hW' hvrest t
      rw [← hchar] at hres
      have hrun : rlRun maxCalls period
          (rets.filter (fun r => decide (last - r < period))) (a :: rest) =
          n2 :: rlRun maxCalls period
            (pruneCalls period n2 (c0 :: tl) ++ [n2]) rest := by
        simp only [rlRun]
        rw [hacq]
      rw [hrun, List.append_cons]
      exact hres
    · -- fast path: fewer than maxCalls in the window
      push_neg at hlen
      have hacq := acquire_of_lt maxCalls period
        (rets.filter (fun r => decide (last - r < period))) a hlen
      rw [hc1] at hlen hacq
      have hfst : (acquire maxCalls period
          (rets.filter (fun r => decide (last - r < period))) a).1 =
          rets.filter (fun r => decide (a - r < period)) ++ [a] := by rw [hacq]
      have hsnd : (acquire maxCalls period
          (rets.filter (fun r => decide (last - r < period))) a).2 = a := by
        rw [hacq]
      have hchar : rets.filter (fun r => decide (a - r < period)) ++ [a] =
          (rets ++ [a]).filter (fun r => decide (a - r < period)) := by
        rw [List.filter_append]
        simp [hp]
      have hle' : ∀ r ∈ rets ++ [a], r ≤ a := by
        intro r hr
        rcases List.mem_append.mp hr with h | h
        · exact le_trans (hle r h) hla
        · simp at h; omega
      have hW' : ∀ u, (rets ++ [a]).countP (inWindow period u) ≤ maxCalls := by
        intro u
        rw [List.countP_append]
        by_cases hwin : inWindow period u a = true
        · have hmono : rets.countP (inWindow period u) ≤
              rets.countP (fun r => decide (a - r < period)) := by
            apply List.countP_mono_left
            intro r _ hpred
            simp only [inWindow, Bool.and_eq_true, decide_eq_true_eq] at hpred hwin
            exact decide_eq_true (by omega)
          have hcount : rets.countP (fun r => decide (a - r < period)) =
              (rets.filter (fun r => decide (a - r < period))).length :=
            List.countP_eq_length_filter _ rets
          have h1 : List.countP (inWindow period u) [a] = 1 := by simp [hwin]
          omega
        · have h1 : List.countP (inWindow period u) [a] = 0 := by simp [hwin]
          have := hW u
          omega
      rw [hfst, hsnd, hchar] at hvrest
      have hres := ih (rets ++ [a]) a hle' hW' hvrest t
      rw [← hchar] at hres
      have hrun : rlRun maxCalls period
          (rets.filter (fun r => decide (last - r < period))) (a :: rest) =
          a :: rlRun maxCalls period
            (rets.filter (fun r => decide (a - r < period)) ++ [a]) rest := by
        simp only [rlRun]
        rw [hacq]
      rw [hrun, List.append_cons]
      exact hres

/-- C1: for every valid serialized execution of `RateLimiter.acquire()`
(constructed with `0 < maxCalls`, `0 < period`, as the process-wide
instance `RateLimiter(max_calls=55, period=60)` is), every `acquire()`
returns (none signals failure — the run produces exactly one return time
per call), and within every sliding window `[t, t + period)` at most
`maxCalls` of the calls return. -/
theorem rate_limiter_sliding_window_bound (maxCalls period : Nat)
    (arrivals : List Nat) (hmc : 0 < maxCalls) (hp : 0 < period)
    (hv : rlValid maxCalls period [] 0 arrivals = true) :
    (rlRun maxCalls period [] arrivals).length = arrivals.length ∧
    ∀ t, (rlRun maxCalls period [] arrivals).countP (inWindow period t)
      ≤ maxCalls := by
  constructor
  · exact rlRun_length maxCalls period arrivals []
  · intro t
    have h := rlRun_window_aux maxCalls period hmc hp arrivals [] 0
      (by simp) (by intro u; simp) (by simpa using hv) t
    simpa using h

/-- Witness for `rate_limiter_sliding_window_bound`: `maxCalls = 1`,
`period = 2`, three calls obtaining the lock at times 0, 0 and 3 — a
valid serialized schedule whose returns are `[0, 2, 4]` — return once
each, and the window `[0, 2)` admits at most 1 return. -/
theorem rate_limiter_sliding_window_bound_witness :
    (rlRun 1 2 [] [0, 0, 3]).length = 3 ∧
    (rlRun 1 2 [] [0, 0, 3]).countP (inWindow 2 0) ≤ 1 :=
  ⟨(rate_limiter_sliding_window_bound 1 2 [0, 0, 3] (by decide) (by decide)
      (by decide)).1,
   (rate_limiter_sliding_window_bound 1 2 [0, 0, 3] (by decide) (by decide)
      (by decide)).2 0⟩

end GMEBot
